import Mathlib

/-!
Verification of the memory benchmarking module
(`memory_performance_benchmark.py`) and the pre-edit observability hook
(`pre_edit.py`).

Python floats are modelled as `ℚ` (the code performs only field
arithmetic and comparisons on them), `datetime` values as rational
timestamps in seconds (so `(t2 - t1).total_seconds()` becomes `t2 - t1`),
Python exceptions as `Except String`, and the external numeric library
calls that compute irrational values (`math.sqrt` inside
`statistics.stdev`, `scipy.stats.sem`, `scipy.stats.t.ppf`) as explicit
function parameters `sqrtFn` / `tppf`, so every analyzer definition is
parametric in them.
-/

/-- `PerformanceMetric` dataclass: one individual performance measurement. -/
structure PerformanceMetric where
  operation : String
  latency_ms : ℚ
  throughput_ops_per_sec : ℚ
  memory_usage_mb : ℚ
  cpu_usage_percent : ℚ
  timestamp : ℚ
  concurrent_users : ℤ
  dataset_size : ℤ
  error : Option String
deriving DecidableEq

/-- `BenchmarkResult` dataclass: the statistical summary of a benchmark run. -/
structure BenchmarkResult where
  operation : String
  dataset_size : ℤ
  concurrent_users : ℤ
  sample_count : ℕ
  latency_mean : ℚ
  latency_median : ℚ
  latency_p95 : ℚ
  latency_p99 : ℚ
  latency_std : ℚ
  latency_ci_lower : ℚ
  latency_ci_upper : ℚ
  throughput_mean : ℚ
  throughput_median : ℚ
  throughput_std : ℚ
  throughput_ci_lower : ℚ
  throughput_ci_upper : ℚ
  memory_usage_mean_mb : ℚ
  cpu_usage_mean_percent : ℚ
  error_rate : ℚ
  total_errors : ℕ
  test_duration_seconds : ℚ
  timestamp : ℚ
deriving DecidableEq

/-- `statistics.mean(data)`: arithmetic mean.  (The Python library raises
`StatisticsError` on an empty list; every call site in the analyzer guards
with `if data else 0.0`, so the junk value `0/0 = 0` on `[]` is never
reached.) -/
def pymean (data : List ℚ) : ℚ := data.sum / (data.length : ℚ)

/-- `statistics.median(data)`: sort, take the middle element (odd length)
or the average of the two middle elements (even length).  (Raises on an
empty list in Python; call sites guard.) -/
def pymedian (data : List ℚ) : ℚ :=
  let s := List.insertionSort (· ≤ ·) data
  let n := data.length
  if n % 2 = 1 then s.getD (n / 2) 0
  else (s.getD (n / 2 - 1) 0 + s.getD (n / 2) 0) / 2

/-- Sample variance with `ddof = 1`, the quantity under the square root in
`statistics.stdev` and `scipy.stats.sem`. -/
def sampleVariance (data : List ℚ) : ℚ :=
  ((data.map fun x => (x - pymean data) ^ 2).sum) / ((data.length : ℚ) - 1)

/-- `statistics.stdev(data)` = square root of the sample variance,
parametric in the square-root implementation. -/
def pystdev (sqrtFn : ℚ → ℚ) (data : List ℚ) : ℚ :=
  sqrtFn (sampleVariance data)

/-- `scipy.stats.sem(data)` = sample standard deviation divided by the
square root of the sample count. -/
def pysem (sqrtFn : ℚ → ℚ) (data : List ℚ) : ℚ :=
  pystdev sqrtFn data / sqrtFn (data.length : ℚ)

namespace StatisticalAnalyzer

/-- `StatisticalAnalyzer.calculate_confidence_interval` (lines 97-108):
returns `(0, 0)` when fewer than 2 samples, otherwise
`(mean - h, mean + h)` with `h = sem * t.ppf((1+confidence)/2, n-1)`.
`tppf q df` stands for `scipy.stats.t.ppf(q, df)`. -/
def calculate_confidence_interval (sqrtFn : ℚ → ℚ) (tppf : ℚ → ℤ → ℚ)
    (data : List ℚ) (confidence : ℚ) : ℚ × ℚ :=
  if data.length < 2 then (0, 0)
  else
    let mean := pymean data
    let sem := pysem sqrtFn data
    let h := sem * tppf ((1 + confidence) / 2) ((data.length : ℤ) - 1)
    (mean - h, mean + h)

/-- `StatisticalAnalyzer.percentile` (lines 110-113):
`np.percentile(data, p) if data else 0.0`.  `np.percentile` with the
default linear-interpolation method sorts the data and interpolates at
the virtual index `k = p/100 * (n-1)`. -/
def percentile (data : List ℚ) (p : ℚ) : ℚ :=
  if data = [] then 0
  else
    let s := List.insertionSort (· ≤ ·) data
    let k : ℚ := p / 100 * ((data.length : ℚ) - 1)
    s.getD (⌊k⌋).toNat 0 + (k - ⌊k⌋) * (s.getD (⌈k⌉).toNat 0 - s.getD (⌊k⌋).toNat 0)

/-- `StatisticalAnalyzer.analyze_metrics` (lines 115-164): raises
`ValueError("No metrics to analyze")` on an empty list, otherwise filters
successes (`error is None`), computes the statistics, and builds the
`BenchmarkResult`.  `now` stands for the `datetime.now()` call. -/
def analyze_metrics (sqrtFn : ℚ → ℚ) (tppf : ℚ → ℤ → ℚ) (now : ℚ)
    (metrics : List PerformanceMetric) : Except String BenchmarkResult :=
  match metrics with
  | [] => .error "No metrics to analyze"
  | m0 :: rest =>
    let all := m0 :: rest
    let latencies := (all.filter fun m => m.error.isNone).map fun m => m.latency_ms
    let throughputs :=
      (all.filter fun m => m.error.isNone).map fun m => m.throughput_ops_per_sec
    let memory_usage :=
      (all.filter fun m => m.error.isNone).map fun m => m.memory_usage_mb
    let cpu_usage :=
      (all.filter fun m => m.error.isNone).map fun m => m.cpu_usage_percent
    let errors := all.filter fun m => m.error.isSome
    let latency_ci := calculate_confidence_interval sqrtFn tppf latencies (95 / 100)
    let throughput_ci := calculate_confidence_interval sqrtFn tppf throughputs (95 / 100)
    .ok
      { operation := m0.operation
        dataset_size := m0.dataset_size
        concurrent_users := m0.concurrent_users
        sample_count := all.length
        latency_mean := if latencies = [] then 0 else pymean latencies
        latency_median := if latencies = [] then 0 else pymedian latencies
        latency_p95 := percentile latencies 95
        latency_p99 := percentile latencies 99
        latency_std := if 1 < latencies.length then pystdev sqrtFn latencies else 0
        latency_ci_lower := latency_ci.1
        latency_ci_upper := latency_ci.2
        throughput_mean := if throughputs = [] then 0 else pymean throughputs
        throughput_median := if throughputs = [] then 0 else pymedian throughputs
        throughput_std := if 1 < throughputs.length then pystdev sqrtFn throughputs else 0
        throughput_ci_lower := throughput_ci.1
        throughput_ci_upper := throughput_ci.2
        memory_usage_mean_mb := if memory_usage = [] then 0 else pymean memory_usage
        cpu_usage_mean_percent := if cpu_usage = [] then 0 else pymean cpu_usage
        error_rate := (errors.length : ℚ) / (all.length : ℚ)
        total_errors := errors.length
        test_duration_seconds := (all.getLastD m0).timestamp - m0.timestamp
        timestamp := now }

end StatisticalAnalyzer

/-- The nondeterministic environment of one `measure_operation` call: the
two `time.perf_counter()` readings, the two `SystemMonitor` probes around
the action, the outcome of `await operation_func()` (`Except.error msg`
when the action raised an exception whose `str` is `msg`), and the
`datetime.now()` reading. -/
structure MeasureEnv where
  start_time : ℚ
  end_time : ℚ
  start_memory : ℚ
  start_cpu : ℚ
  end_memory : ℚ
  end_cpu : ℚ
  action_result : Except String Unit
  now : ℚ

namespace MemoryMCPBenchmark

/-- `MemoryMCPBenchmark.measure_operation` (lines 286-321): run the action
under a `try/except Exception`, record `str(e)` as the error on failure,
and always return a `PerformanceMetric` built from the timing and resource
probes. -/
def measure_operation (operation : String) (env : MeasureEnv)
    (dataset_size : ℤ) (concurrent_users : ℤ) : PerformanceMetric :=
  let error : Option String :=
    match env.action_result with
    | .ok _ => none
    | .error e => some e
  let latency_ms := (env.end_time - env.start_time) * 1000
  let throughput :=
    if env.start_time < env.end_time then 1 / (env.end_time - env.start_time) else 0
  { operation := operation
    latency_ms := latency_ms
    throughput_ops_per_sec := throughput
    memory_usage_mb := max env.end_memory env.start_memory
    cpu_usage_percent := max env.end_cpu env.start_cpu
    timestamp := env.now
    concurrent_users := concurrent_users
    dataset_size := dataset_size
    error := error }

/-- The inner `user_simulation` coroutine of `run_load_test` (lines
344-354): one simulated user sequentially performs `samples_per_user`
measured operations and returns its private metric list.  `env i` is the
measurement environment of the user's `i`-th call (the pacing
`asyncio.sleep` between calls has no observable effect on the metrics). -/
def user_simulation (operation : String) (env : ℕ → MeasureEnv)
    (dataset_size : ℤ) (concurrent_users : ℤ) (samples_per_user : ℕ) :
    List PerformanceMetric :=
  (List.range samples_per_user).map fun i =>
    measure_operation operation (env i) dataset_size concurrent_users

/-- `MemoryMCPBenchmark.run_load_test` (lines 323-367): spawn one
`user_simulation` task per user `0, …, concurrent_users - 1`, await them
with `asyncio.as_completed`, and concatenate the per-user lists in
completion order.  `env u i` is the environment of user `u`'s `i`-th
measurement; `completion_order` is the order in which the `asyncio` tasks
complete (a permutation of `range concurrent_users` in any actual run).
`duration_seconds` is accepted and appears only in a log message. -/
def run_load_test (operation : String) (env : ℕ → ℕ → MeasureEnv)
    (dataset_size : ℤ) (concurrent_users : ℕ) (duration_seconds : ℤ)
    (samples_per_user : ℕ) (completion_order : List ℕ) :
    List PerformanceMetric :=
  let _ := duration_seconds
  (completion_order.map fun u =>
    user_simulation operation (env u) dataset_size (concurrent_users : ℤ)
      samples_per_user).flatten

end MemoryMCPBenchmark

/-- One entry of the `detailed_comparison` dictionary built by
`ComparisonAnalyzer.compare_systems`. -/
structure OpComparison where
  latency_improvement_percent : ℚ
  throughput_improvement_percent : ℚ
  memory_improvement_percent : ℚ
  current_p95_latency : ℚ
  target_p95_latency : ℚ
  meets_target_10x_search_latency : Bool
  meets_target_5x_storage_throughput : Bool
  meets_target_50_percent_memory_reduction : Bool
deriving DecidableEq

namespace ComparisonAnalyzer

/-- The per-operation body of `ComparisonAnalyzer.compare_systems` (lines
495-519), executed when an operation has both a current and a target
`BenchmarkResult`.  Python raises `ZeroDivisionError` when a current-side
mean is zero; the three improvement ratios are evaluated in source order,
so the first zero divisor raises. -/
def compare_operation (current target : BenchmarkResult) :
    Except String OpComparison :=
  if current.latency_mean = 0 then .error "ZeroDivisionError" else
  if current.throughput_mean = 0 then .error "ZeroDivisionError" else
  if current.memory_usage_mean_mb = 0 then .error "ZeroDivisionError" else
  let latency_improvement :=
    (current.latency_mean - target.latency_mean) / current.latency_mean
  let throughput_improvement :=
    (target.throughput_mean - current.throughput_mean) / current.throughput_mean
  let memory_improvement :=
    (current.memory_usage_mean_mb - target.memory_usage_mean_mb) /
      current.memory_usage_mean_mb
  .ok
    { latency_improvement_percent := latency_improvement * 100
      throughput_improvement_percent := throughput_improvement * 100
      memory_improvement_percent := memory_improvement * 100
      current_p95_latency := current.latency_p95
      target_p95_latency := target.latency_p95
      meets_target_10x_search_latency :=
        decide (target.latency_p95 ≤ current.latency_p95 / 10)
      meets_target_5x_storage_throughput :=
        decide (target.throughput_mean ≥ current.throughput_mean * 5)
      meets_target_50_percent_memory_reduction :=
        decide (memory_improvement ≥ 1 / 2) }

end ComparisonAnalyzer

/-- The `HookEventContent` payload built by `handle_pre_edit` (the
`hook_event` module itself is outside this subsystem; only the fields the
hook passes are modelled). -/
structure HookEventContent where
  event_type : String
  tool_name : String
  file_paths : List String
  session_id : Option String
  metadata_file_count : ℕ
  metadata_hook_type : String
deriving DecidableEq

/-- A constructed hook event (opaque to the hook beyond its content). -/
structure HookEvent where
  content : HookEventContent
deriving DecidableEq

/-- The dictionary returned by `handle_pre_edit`: the success shape is
`{"proceed": True, "file_count": …, "event_logged": True}` and the failure
shape is `{"proceed": True, "error": …, "event_logged": False}`; absent
keys are `none`. -/
structure PreEditResult where
  proceed : Bool
  file_count : Option ℕ
  event_logged : Bool
  error : Option String
deriving DecidableEq

/-- `handle_pre_edit` (pre_edit.py lines 19-49).  `mkHookEvent` stands for
the fallible `HookEvent(content=HookEventContent(...))` construction and
`saveEvent` for `asyncio.run(event.save())`; both are external to this
file's subsystem.  A `saveEvent` failure is swallowed by the inner
`try/except`; a `mkHookEvent` failure is caught by the outer handler,
which still reports `proceed = True`. -/
def handle_pre_edit (file_paths : List String) (tool_name : String)
    (session_id : Option String)
    (mkHookEvent : HookEventContent → Except String HookEvent)
    (saveEvent : HookEvent → Except String Unit) : PreEditResult :=
  let content : HookEventContent :=
    { event_type := "pre_edit"
      tool_name := tool_name
      file_paths := file_paths
      session_id := session_id
      metadata_file_count := file_paths.length
      metadata_hook_type := "pre_edit" }
  match mkHookEvent content with
  | .error e =>
    { proceed := true, file_count := none, event_logged := false, error := some e }
  | .ok ev =>
    match saveEvent ev with
    | .ok _ =>
      { proceed := true, file_count := some file_paths.length,
        event_logged := true, error := none }
    | .error _ =>
      { proceed := true, file_count := some file_paths.length,
        event_logged := true, error := none }

/-- A concrete `BenchmarkResult` with nonzero means and `latency_p95 = 0`,
used to exercise `compare_operation`. -/
def cexC5current : BenchmarkResult :=
  { operation := "memory_search", dataset_size := 1000, concurrent_users := 1,
    sample_count := 1, latency_mean := 1, latency_median := 1, latency_p95 := 0,
    latency_p99 := 0, latency_std := 0, latency_ci_lower := 0, latency_ci_upper := 0,
    throughput_mean := 1, throughput_median := 1, throughput_std := 0,
    throughput_ci_lower := 0, throughput_ci_upper := 0, memory_usage_mean_mb := 1,
    cpu_usage_mean_percent := 0, error_rate := 0, total_errors := 0,
    test_duration_seconds := 0, timestamp := 0 }

/-- A concrete current-system summary with `latency_p95 = 10` and nonzero
means, used to instantiate the amended 10x-latency-flag theorem. -/
def c5current : BenchmarkResult :=
  { cexC5current with latency_p95 := 10 }

/-- `c5current` with target latency p95 exactly one tenth of the current. -/
def c5target10 : BenchmarkResult :=
  { cexC5current with latency_p95 := 1 }

/-- `c5current` with target latency p95 exactly one ninth of the current. -/
def c5target9 : BenchmarkResult :=
  { cexC5current with latency_p95 := 10 / 9 }

/-- C1: `analyze_metrics` raises `ValueError("No metrics to analyze")` on
an empty metric list, and a `BenchmarkResult` is only ever produced from a
non-empty metric collection. -/
theorem C1_analyze_metrics_requires_nonempty (sqrtFn : ℚ → ℚ) (tppf : ℚ → ℤ → ℚ)
    (now : ℚ) :
    StatisticalAnalyzer.analyze_metrics sqrtFn tppf now [] =
      .error "No metrics to analyze" ∧
    ∀ (metrics : List PerformanceMetric) (r : BenchmarkResult),
      StatisticalAnalyzer.analyze_metrics sqrtFn tppf now metrics = .ok r →
        metrics ≠ [] := by
  refine ⟨rfl, ?_⟩
  intro metrics r h
  cases metrics with
  | nil => exact absurd h (by simp [StatisticalAnalyzer.analyze_metrics])
  | cons m0 rest => simp

theorem C1_witness :
    StatisticalAnalyzer.analyze_metrics id (fun _ _ => 1) 0 [] =
      .error "No metrics to analyze" ∧
    ([⟨"memory_store", 1, 1, 0, 0, 0, 1, 1000, none⟩] : List PerformanceMetric) ≠ [] := by
  obtain ⟨hr, hok⟩ :
      ∃ r, StatisticalAnalyzer.analyze_metrics id (fun _ _ => 1) 0
        [⟨"memory_store", 1, 1, 0, 0, 0, 1, 1000, none⟩] = .ok r := ⟨_, rfl⟩
  exact ⟨(C1_analyze_metrics_requires_nonempty id (fun _ _ => 1) 0).1,
    (C1_analyze_metrics_requires_nonempty id (fun _ _ => 1) 0).2 _ hr hok⟩

/-- C10: the `BenchmarkResult` of `analyze_metrics` takes its `operation`,
`dataset_size` and `concurrent_users` fields solely from the first metric;
no homogeneity check is performed on the rest of the list, which is
summarized under the first record's label whatever it contains. -/
theorem C10_analyze_metrics_header_from_first (sqrtFn : ℚ → ℚ) (tppf : ℚ → ℤ → ℚ)
    (now : ℚ) (m0 : PerformanceMetric) (rest : List PerformanceMetric) :
    ∃ r, StatisticalAnalyzer.analyze_metrics sqrtFn tppf now (m0 :: rest) = .ok r ∧
      r.operation = m0.operation ∧ r.dataset_size = m0.dataset_size ∧
      r.concurrent_users = m0.concurrent_users :=
  ⟨_, rfl, rfl, rfl, rfl⟩

/-- C8: `duration_seconds` is advisory and unused — two `run_load_test`
calls differing only in it return identical metric lists (the driver never
cancels and always awaits every spawned task). -/
theorem C8_duration_has_no_effect (op : String) (env : ℕ → ℕ → MeasureEnv)
    (ds : ℤ) (U : ℕ) (S : ℕ) (order : List ℕ) (d1 d2 : ℤ) :
    MemoryMCPBenchmark.run_load_test op env ds U d1 S order =
      MemoryMCPBenchmark.run_load_test op env ds U d2 S order := rfl

/-- C3: with concurrency `U` and `S` samples per user, `run_load_test`
returns exactly `U * S` metric records, for any completion order of the
`U` spawned tasks (failed operations still contribute one record each,
since `measure_operation` always returns a metric). -/
theorem C3_load_test_count (op : String) (env : ℕ → ℕ → MeasureEnv) (ds : ℤ)
    (U : ℕ) (d : ℤ) (S : ℕ) (order : List ℕ)
    (hperm : order.Perm (List.range U)) :
    (MemoryMCPBenchmark.run_load_test op env ds U d S order).length = U * S := by
  have hlen : order.length = U := by
    simpa using hperm.length_eq
  have hconst : ∀ (l : List ℕ),
      ((l.map fun u =>
        MemoryMCPBenchmark.user_simulation op (env u) ds (U : ℤ) S).map
          List.length).sum = l.length * S := by
    intro l
    induction l with
    | nil => simp
    | cons a l ih =>
      have hS : (MemoryMCPBenchmark.user_simulation op (env a) ds (U : ℤ) S).length = S := by
        simp [MemoryMCPBenchmark.user_simulation]
      simp only [List.map_cons, List.sum_cons, ih, hS, List.length_cons]
      ring
  calc (MemoryMCPBenchmark.run_load_test op env ds U d S order).length
      = ((order.map fun u =>
          MemoryMCPBenchmark.user_simulation op (env u) ds (U : ℤ) S).map
            List.length).sum := by
        simp [MemoryMCPBenchmark.run_load_test, List.length_flatten]
    _ = order.length * S := hconst order
    _ = U * S := by rw [hlen]

theorem C3_witness :
    (MemoryMCPBenchmark.run_load_test "memory_store"
      (fun _ _ => ⟨0, 1, 0, 0, 0, 0, .ok (), 0⟩) 1000 2 60 3
      (List.range 2)).length = 2 * 3 :=
  C3_load_test_count "memory_store" _ 1000 2 60 3 (List.range 2) (List.Perm.refl _)

/-- C9: `handle_pre_edit` reports `proceed = True` for every input, both
when the hook event is constructed and saved and when constructing or
saving it raises; the hook never blocks the caller on internal failure. -/
theorem C9_pre_edit_always_proceeds (file_paths : List String) (tool_name : String)
    (session_id : Option String)
    (mkHookEvent : HookEventContent → Except String HookEvent)
    (saveEvent : HookEvent → Except String Unit) :
    (handle_pre_edit file_paths tool_name session_id mkHookEvent saveEvent).proceed =
      true := by
  unfold handle_pre_edit
  dsimp only
  split
  · rfl
  · split <;> rfl

/-- C6 counterexample: when the measured action raises an exception whose
message string is empty (`str(e) = ""`), `measure_operation` records an
error field that is present but *empty*, refuting the claim that the error
field is always non-empty on failure. -/
theorem C6_counterexample :
    (MemoryMCPBenchmark.measure_operation "memory_store"
        ⟨0, 1, 0, 0, 0, 0, .error "", 0⟩ 1000 1).error = some "" ∧
      ("" : String).length = 0 := by
  constructor
  · rfl
  · rfl

/-- C6 (amended): `measure_operation` never propagates the action's
exception and always returns a `PerformanceMetric`; when the action raises
with message `e`, the metric's error field is `some e` (present, but empty
exactly when the exception message is empty); when the action returns
normally, the error field is `none`. -/
theorem C6_measure_operation_error_capture (op : String) (env : MeasureEnv)
    (ds cu : ℤ) :
    (∀ e, env.action_result = .error e →
      (MemoryMCPBenchmark.measure_operation op env ds cu).error = some e) ∧
    (∀ u, env.action_result = .ok u →
      (MemoryMCPBenchmark.measure_operation op env ds cu).error = none) := by
  constructor
  · intro e he
    simp [MemoryMCPBenchmark.measure_operation, he]
  · intro u hu
    simp [MemoryMCPBenchmark.measure_operation, hu]

theorem C6_witness :
    (MemoryMCPBenchmark.measure_operation "memory_store"
      ⟨0, 1, 0, 0, 0, 0, .error "boom", 0⟩ 1000 1).error = some "boom" ∧
    (MemoryMCPBenchmark.measure_operation "memory_store"
      ⟨0, 1, 0, 0, 0, 0, .ok (), 0⟩ 1000 1).error = none :=
  ⟨(C6_measure_operation_error_capture "memory_store"
      ⟨0, 1, 0, 0, 0, 0, .error "boom", 0⟩ 1000 1).1 "boom" rfl,
   (C6_measure_operation_error_capture "memory_store"
      ⟨0, 1, 0, 0, 0, 0, .ok (), 0⟩ 1000 1).2 () rfl⟩

/-- C5 counterexample: when the current summary has `latency_p95 = 0` (and
nonzero means so that no `ZeroDivisionError` is raised), a target latency
of exactly current/9 still satisfies `target ≤ current/10`, so the
"10x latency improvement" flag is *true*, refuting the unconditional
claim. -/
theorem C5_counterexample :
    cexC5current.latency_p95 = cexC5current.latency_p95 / 9 ∧
    (ComparisonAnalyzer.compare_operation cexC5current cexC5current).map
      (fun r => r.meets_target_10x_search_latency) = .ok true := by
  constructor
  · norm_num [cexC5current]
  · norm_num [ComparisonAnalyzer.compare_operation, cexC5current, Except.map]

/-- C5 (amended): for summaries with nonzero current means (so that
`compare_systems` does not raise `ZeroDivisionError`), a target latency
p95 of exactly current/10 makes the "10x latency improvement" flag true,
and — provided the current latency p95 is strictly positive — a target
latency p95 of exactly current/9 makes it false. -/
theorem C5_ten_x_latency_flag (c t : BenchmarkResult)
    (h1 : c.latency_mean ≠ 0) (h2 : c.throughput_mean ≠ 0)
    (h3 : c.memory_usage_mean_mb ≠ 0) :
    (t.latency_p95 = c.latency_p95 / 10 →
      (ComparisonAnalyzer.compare_operation c t).map
        (fun r => r.meets_target_10x_search_latency) = .ok true) ∧
    (0 < c.latency_p95 → t.latency_p95 = c.latency_p95 / 9 →
      (ComparisonAnalyzer.compare_operation c t).map
        (fun r => r.meets_target_10x_search_latency) = .ok false) := by
  unfold ComparisonAnalyzer.compare_operation
  rw [if_neg h1, if_neg h2, if_neg h3]
  constructor
  · intro ht
    simp only [Except.map, decide_eq_true_eq]
    rw [ht]
    simp
  · intro hpos ht
    simp only [Except.map, Except.ok.injEq]
    rw [ht]
    simp only [decide_eq_false_iff_not]
    intro hle
    nlinarith

theorem C5_witness :
    (ComparisonAnalyzer.compare_operation c5current c5target10).map
      (fun r => r.meets_target_10x_search_latency) = .ok true ∧
    (ComparisonAnalyzer.compare_operation c5current c5target9).map
      (fun r => r.meets_target_10x_search_latency) = .ok false :=
  ⟨(C5_ten_x_latency_flag c5current c5target10
        (by norm_num [c5current, cexC5current]) (by norm_num [c5current, cexC5current])
        (by norm_num [c5current, cexC5current])).1
      (by norm_num [c5target10, c5current, cexC5current]),
   (C5_ten_x_latency_flag c5current c5target9
        (by norm_num [c5current, cexC5current]) (by norm_num [c5current, cexC5current])
        (by norm_num [c5current, cexC5current])).2
      (by norm_num [c5current, cexC5current])
      (by norm_num [c5target9, c5current, cexC5current])⟩

/-- Filtering on `error.isNone` is idempotent; used to compare an analysis
with the analysis of its own successful sub-collection. -/
theorem filter_error_isNone_idem (l : List PerformanceMetric) :
    (l.filter fun m => m.error.isNone).filter (fun m => m.error.isNone) =
      l.filter fun m => m.error.isNone :=
  List.filter_eq_self.mpr fun _ ha => (List.mem_filter.mp ha).2

/-- C2: for a non-empty metric list with `k` failed records out of `n`,
`analyze_metrics` succeeds with `error_rate = k / n` exactly; every latency
and throughput statistic agrees with the one computed from the
successful-records-only sublist; and an all-failed list does not raise but
yields zero latency statistics with `error_rate = 1`. -/
theorem C2_error_rate_and_success_only_stats (sqrtFn : ℚ → ℚ) (tppf : ℚ → ℤ → ℚ)
    (now : ℚ) (metrics : List PerformanceMetric) (hne : metrics ≠ []) :
    ∃ r, StatisticalAnalyzer.analyze_metrics sqrtFn tppf now metrics = .ok r ∧
      r.error_rate =
        ((metrics.filter fun m => m.error.isSome).length : ℚ) / (metrics.length : ℚ) ∧
      r.total_errors = (metrics.filter fun m => m.error.isSome).length ∧
      (∀ r', StatisticalAnalyzer.analyze_metrics sqrtFn tppf now
          (metrics.filter fun m => m.error.isNone) = .ok r' →
        r'.latency_mean = r.latency_mean ∧ r'.latency_median = r.latency_median ∧
        r'.latency_p95 = r.latency_p95 ∧ r'.latency_p99 = r.latency_p99 ∧
        r'.latency_std = r.latency_std ∧ r'.latency_ci_lower = r.latency_ci_lower ∧
        r'.latency_ci_upper = r.latency_ci_upper ∧
        r'.throughput_mean = r.throughput_mean ∧
        r'.throughput_median = r.throughput_median ∧
        r'.throughput_std = r.throughput_std ∧
        r'.throughput_ci_lower = r.throughput_ci_lower ∧
        r'.throughput_ci_upper = r.throughput_ci_upper) ∧
      ((∀ m ∈ metrics, m.error.isSome) →
        r.latency_mean = 0 ∧ r.latency_median = 0 ∧ r.latency_p95 = 0 ∧
        r.latency_p99 = 0 ∧ r.latency_std = 0 ∧ r.latency_ci_lower = 0 ∧
        r.latency_ci_upper = 0 ∧ r.error_rate = 1) := by
  obtain ⟨m0, rest, rfl⟩ : ∃ m0 rest, metrics = m0 :: rest := by
    cases metrics with
    | nil => exact absurd rfl hne
    | cons a l => exact ⟨a, l, rfl⟩
  refine ⟨_, rfl, rfl, rfl, ?_, ?_⟩
  · intro r' h'
    cases hf : (m0 :: rest).filter (fun m => m.error.isNone) with
    | nil =>
      rw [hf] at h'
      exact absurd h' (by simp [StatisticalAnalyzer.analyze_metrics])
    | cons m1 rest1 =>
      rw [hf] at h'
      have hflt : ((m1 :: rest1).filter fun m => m.error.isNone) = m1 :: rest1 := by
        rw [← hf]
        exact filter_error_isNone_idem _
      simp only [StatisticalAnalyzer.analyze_metrics, Except.ok.injEq] at h'
      subst h'
      simp [hflt]
  · intro hfail
    have hnil : ((m0 :: rest).filter fun m => m.error.isNone) = [] := by
      rw [List.filter_eq_nil_iff]
      intro a ha
      have := hfail a ha
      simp [Option.isNone_iff_eq_none]
      exact Option.isSome_iff_ne_none.mp this
    have hall : ((m0 :: rest).filter fun m => m.error.isSome) = m0 :: rest :=
      List.filter_eq_self.mpr hfail
    refine ⟨?_, ?_, ?_, ?_, ?_, ?_, ?_, ?_⟩ <;>
      simp [hnil, hall, StatisticalAnalyzer.percentile,
        StatisticalAnalyzer.calculate_confidence_interval]
    exact div_self (by positivity)

theorem C2_witness :
    (∃ r, StatisticalAnalyzer.analyze_metrics id (fun _ _ => 1) 0
        [⟨"memory_store", 1, 1, 0, 0, 0, 1, 0, none⟩,
         ⟨"memory_store", 5, 5, 0, 0, 1, 1, 0, some "E"⟩] = .ok r ∧
      r.error_rate = 1 / 2) ∧
    (∃ r, StatisticalAnalyzer.analyze_metrics id (fun _ _ => 1) 0
        [⟨"memory_store", 5, 5, 0, 0, 1, 1, 0, some "E"⟩] = .ok r ∧
      r.latency_mean = 0 ∧ r.latency_p95 = 0 ∧ r.error_rate = 1) := by
  constructor
  · obtain ⟨r, hok, hrate, -, -, -⟩ :=
      C2_error_rate_and_success_only_stats id (fun _ _ => 1) 0
        [⟨"memory_store", 1, 1, 0, 0, 0, 1, 0, none⟩,
         ⟨"memory_store", 5, 5, 0, 0, 1, 1, 0, some "E"⟩] (by simp)
    refine ⟨r, hok, ?_⟩
    rw [hrate]
    norm_num [List.filter]
  · obtain ⟨r, hok, -, -, -, hfail⟩ :=
      C2_error_rate_and_success_only_stats id (fun _ _ => 1) 0
        [⟨"memory_store", 5, 5, 0, 0, 1, 1, 0, some "E"⟩] (by simp)
    obtain ⟨h1, -, h3, -, -, -, -, h8⟩ := hfail (by
      intro m hm
      simp only [List.mem_singleton] at hm
      subst hm
      rfl)
    exact ⟨r, hok, h1, h3, h8⟩

/-- A list of nonnegative rationals with one positive member has positive
sum. -/
theorem list_sum_pos_of_mem (l : List ℚ) (h0 : ∀ z ∈ l, 0 ≤ z) (x : ℚ)
    (hx : x ∈ l) (hpos : 0 < x) : 0 < l.sum := by
  induction l with
  | nil => cases hx
  | cons a l ih =>
    rw [List.sum_cons]
    rcases List.mem_cons.mp hx with rfl | hx'
    · have hl : 0 ≤ l.sum :=
        List.sum_nonneg fun z hz => h0 z (List.mem_cons_of_mem _ hz)
      linarith
    · have ha : 0 ≤ a := h0 a (List.mem_cons_self _ _)
      have := ih (fun z hz => h0 z (List.mem_cons_of_mem _ hz)) hx'
      linarith

/-- The sample variance is strictly positive as soon as the data holds two
distinct values (and at least two samples). -/
theorem sampleVariance_pos (data : List ℚ) (h2 : 2 ≤ data.length)
    (x y : ℚ) (hx : x ∈ data) (hy : y ∈ data) (hxy : x ≠ y) :
    0 < sampleVariance data := by
  have hdev : x ≠ pymean data ∨ y ≠ pymean data := by
    by_contra hc
    push_neg at hc
    exact hxy (hc.1.trans hc.2.symm)
  have hnum : 0 < ((data.map fun z => (z - pymean data) ^ 2).sum) := by
    have h0 : ∀ z ∈ data.map fun z => (z - pymean data) ^ 2, 0 ≤ z := by
      intro z hz
      obtain ⟨w, -, rfl⟩ := List.mem_map.mp hz
      positivity
    rcases hdev with hd | hd
    · exact list_sum_pos_of_mem _ h0 _ (List.mem_map_of_mem _ hx)
        (sq_pos_of_ne_zero (sub_ne_zero.mpr hd))
    · exact list_sum_pos_of_mem _ h0 _ (List.mem_map_of_mem _ hy)
        (sq_pos_of_ne_zero (sub_ne_zero.mpr hd))
  have hden : 0 < (data.length : ℚ) - 1 := by
    have : (2 : ℚ) ≤ (data.length : ℚ) := by exact_mod_cast h2
    linarith
  exact div_pos hnum hden

/-- C4: `calculate_confidence_interval` returns exactly `(0, 0)` for fewer
than 2 samples; with at least 2 samples, two distinct values, a square
root that is positive on positives, and a positive t-critical value
(`scipy.stats.t.ppf(0.975, n-1) > 0` holds for every `n ≥ 2`), the
returned interval strictly contains the arithmetic mean, hence has
strictly positive width. -/
theorem C4_confidence_interval (sqrtFn : ℚ → ℚ) (tppf : ℚ → ℤ → ℚ)
    (data : List ℚ) :
    (data.length < 2 →
      StatisticalAnalyzer.calculate_confidence_interval sqrtFn tppf data (95 / 100) =
        (0, 0)) ∧
    (2 ≤ data.length →
      (∃ x ∈ data, ∃ y ∈ data, x ≠ y) →
      (∀ q : ℚ, 0 < q → 0 < sqrtFn q) →
      0 < tppf ((1 + 95 / 100) / 2) ((data.length : ℤ) - 1) →
      (StatisticalAnalyzer.calculate_confidence_interval sqrtFn tppf data
          (95 / 100)).1 < pymean data ∧
        pymean data <
          (StatisticalAnalyzer.calculate_confidence_interval sqrtFn tppf data
            (95 / 100)).2) := by
  constructor
  · intro h
    simp [StatisticalAnalyzer.calculate_confidence_interval, h]
  · rintro h2 ⟨x, hx, y, hy, hxy⟩ hsqrt ht
    have hvar : 0 < sampleVariance data := sampleVariance_pos data h2 x y hx hy hxy
    have hn : 0 < (data.length : ℚ) := by
      have : (2 : ℚ) ≤ (data.length : ℚ) := by exact_mod_cast h2
      linarith
    have hsem : 0 < pysem sqrtFn data :=
      div_pos (hsqrt _ hvar) (hsqrt _ hn)
    have hh : 0 < pysem sqrtFn data * tppf ((1 + 95 / 100) / 2) ((data.length : ℤ) - 1) :=
      mul_pos hsem ht
    unfold StatisticalAnalyzer.calculate_confidence_interval
    rw [if_neg (by omega : ¬data.length < 2)]
    constructor
    · dsimp only
      linarith
    · dsimp only
      linarith

theorem C4_witness :
    StatisticalAnalyzer.calculate_confidence_interval id (fun _ _ => 1)
        [(1 : ℚ)] (95 / 100) = (0, 0) ∧
    ((StatisticalAnalyzer.calculate_confidence_interval id (fun _ _ => 1)
        [(1 : ℚ), 2] (95 / 100)).1 < pymean [(1 : ℚ), 2] ∧
      pymean [(1 : ℚ), 2] <
        (StatisticalAnalyzer.calculate_confidence_interval id (fun _ _ => 1)
          [(1 : ℚ), 2] (95 / 100)).2) :=
  ⟨(C4_confidence_interval id (fun _ _ => 1) [(1 : ℚ)]).1 (by norm_num),
   (C4_confidence_interval id (fun _ _ => 1) [(1 : ℚ), 2]).2 (by norm_num)
     ⟨1, by norm_num, 2, by norm_num, by norm_num⟩ (fun q hq => hq) (by norm_num)⟩

/-- In a sorted list, entries are monotone in the index. -/
theorem sorted_getD_mono (s : List ℚ) (hs : s.Sorted (· ≤ ·)) {i j : ℕ}
    (hij : i ≤ j) (hj : j < s.length) : s.getD i 0 ≤ s.getD j 0 := by
  have hi : i < s.length := lt_of_le_of_lt hij hj
  rw [List.getD_eq_getElem s 0 hi, List.getD_eq_getElem s 0 hj]
  have h := hs.rel_get_of_le (a := ⟨i, hi⟩) (b := ⟨j, hj⟩) hij
  simpa using h

/-- The linear interpolation at virtual index `k` into a sorted array:
the core computation of `np.percentile`'s default method, factored out of
`percentile` for reasoning. -/
def sortedInterp (s : List ℚ) (k : ℚ) : ℚ :=
  s.getD (⌊k⌋).toNat 0 + (k - ⌊k⌋) * (s.getD (⌈k⌉).toNat 0 - s.getD (⌊k⌋).toNat 0)

/-- On a non-empty list, `percentile` is the interpolation into the sorted
copy at virtual index `p/100 * (n-1)`. -/
theorem percentile_eq_sortedInterp (data : List ℚ) (p : ℚ) (h : data ≠ []) :
    StatisticalAnalyzer.percentile data p =
      sortedInterp (List.insertionSort (· ≤ ·) data)
        (p / 100 * ((data.length : ℚ) - 1)) := by
  rw [StatisticalAnalyzer.percentile, if_neg h]
  rfl

/-- The interpolated value lies between the floor entry and the ceiling
entry of the sorted array. -/
theorem sortedInterp_bounds (s : List ℚ) (hs : s.Sorted (· ≤ ·)) (k : ℚ)
    (hk0 : 0 ≤ k) (hkn : k ≤ (s.length : ℚ) - 1) :
    s.getD (⌊k⌋).toNat 0 ≤ sortedInterp s k ∧
      sortedInterp s k ≤ s.getD (⌈k⌉).toNat 0 := by
  have hN1 : (1 : ℚ) ≤ (s.length : ℚ) := by linarith
  have hN : 1 ≤ s.length := by exact_mod_cast hN1
  have hcl : ⌈k⌉ ≤ (s.length : ℤ) - 1 := by
    rw [Int.ceil_le]
    push_cast
    exact hkn
  have hhi : (⌈k⌉).toNat < s.length := by omega
  have hlohi : (⌊k⌋).toNat ≤ (⌈k⌉).toNat := by
    have := Int.floor_le_ceil k
    omega
  have hd0 : 0 ≤ k - (⌊k⌋ : ℚ) := by
    have := Int.floor_le k
    linarith
  have hd1 : k - (⌊k⌋ : ℚ) ≤ 1 := by
    have := Int.lt_floor_add_one k
    push_cast at this
    linarith
  have hmono := sorted_getD_mono s hs hlohi hhi
  unfold sortedInterp
  constructor
  · nlinarith [mul_nonneg hd0 (sub_nonneg.mpr hmono)]
  · nlinarith [mul_nonneg (by linarith : (0:ℚ) ≤ 1 - (k - (⌊k⌋ : ℚ)))
      (sub_nonneg.mpr hmono)]

/-- The interpolated value is monotone in the virtual index. -/
theorem sortedInterp_mono (s : List ℚ) (hs : s.Sorted (· ≤ ·)) (k1 k2 : ℚ)
    (h0 : 0 ≤ k1) (h12 : k1 ≤ k2) (h2n : k2 ≤ (s.length : ℚ) - 1) :
    sortedInterp s k1 ≤ sortedInterp s k2 := by
  have h01 : 0 ≤ k2 := le_trans h0 h12
  have h1n : k1 ≤ (s.length : ℚ) - 1 := le_trans h12 h2n
  have hN1 : (1 : ℚ) ≤ (s.length : ℚ) := by linarith
  have hN : 1 ≤ s.length := by exact_mod_cast hN1
  have hc2 : ⌈k2⌉ ≤ (s.length : ℤ) - 1 := by
    rw [Int.ceil_le]
    push_cast
    exact h2n
  have hc1 : ⌈k1⌉ ≤ (s.length : ℤ) - 1 := by
    rw [Int.ceil_le]
    push_cast
    exact h1n
  have hf2n : ⌊k2⌋ ≤ (s.length : ℤ) - 1 := le_trans (Int.floor_le_ceil k2) hc2
  have hff : ⌊k1⌋ ≤ ⌊k2⌋ := Int.floor_le_floor h12
  have hf1 : (0 : ℤ) ≤ ⌊k1⌋ := Int.floor_nonneg.mpr h0
  rcases eq_or_lt_of_le (Int.floor_le k1) with heq | hlt
  · -- k1 is an integer: its interpolation is exactly the floor entry
    have hd1 : k1 - (⌊k1⌋ : ℚ) = 0 := by linarith
    have e1 : sortedInterp s k1 = s.getD (⌊k1⌋).toNat 0 := by
      unfold sortedInterp
      rw [hd1]
      ring
    rw [e1]
    have hlo2 := (sortedInterp_bounds s hs k2 h01 h2n).1
    have hmono := sorted_getD_mono s hs
      (by omega : (⌊k1⌋).toNat ≤ (⌊k2⌋).toNat) (by omega : (⌊k2⌋).toNat < s.length)
    linarith
  · -- k1 is not an integer, so its ceiling is floor + 1
    have hc1e : ⌈k1⌉ = ⌊k1⌋ + 1 := by
      refine le_antisymm (Int.ceil_le_floor_add_one k1) ?_
      have h1 : (⌊k1⌋ : ℚ) < (⌈k1⌉ : ℚ) := lt_of_lt_of_le hlt (Int.le_ceil k1)
      have h2 : ⌊k1⌋ < ⌈k1⌉ := by exact_mod_cast h1
      omega
    rcases eq_or_lt_of_le hff with hfe | hflt
    · -- same floor segment: linear in the fractional part
      have hlt2 : (⌊k2⌋ : ℚ) < k2 := by
        rw [← hfe]
        linarith
      have hc2e : ⌈k2⌉ = ⌊k2⌋ + 1 := by
        refine le_antisymm (Int.ceil_le_floor_add_one k2) ?_
        have h1 : (⌊k2⌋ : ℚ) < (⌈k2⌉ : ℚ) := lt_of_lt_of_le hlt2 (Int.le_ceil k2)
        have h2 : ⌊k2⌋ < ⌈k2⌉ := by exact_mod_cast h1
        omega
      have hhi2 : ((⌊k1⌋ + 1 : ℤ)).toNat < s.length := by
        rw [← hc1e]
        omega
      have hmono := sorted_getD_mono s hs
        (by omega : (⌊k1⌋).toNat ≤ ((⌊k1⌋ + 1 : ℤ)).toNat) hhi2
      have hdd : k1 - (⌊k1⌋ : ℚ) ≤ k2 - (⌊k1⌋ : ℚ) := by linarith
      unfold sortedInterp
      rw [hc1e, hc2e, ← hfe]
      nlinarith [mul_nonneg (by linarith : (0:ℚ) ≤ (k2 - (⌊k1⌋ : ℚ)) - (k1 - (⌊k1⌋ : ℚ)))
        (sub_nonneg.mpr hmono)]
    · -- strictly larger floor: chain through the boundary entries
      have hb1 := (sortedInterp_bounds s hs k1 h0 h1n).2
      have hb2 := (sortedInterp_bounds s hs k2 h01 h2n).1
      have hmid : s.getD (⌈k1⌉).toNat 0 ≤ s.getD (⌊k2⌋).toNat 0 := by
        refine sorted_getD_mono s hs ?_ (by omega)
        rw [hc1e]
        omega
      linarith

/-- The 95th percentile is at most the 99th, and both lie between the
minimum `a` and maximum `b` of a non-empty data list. -/
theorem percentile_between (lat : List ℚ) (hne : lat ≠ []) :
    ∃ a ∈ lat, ∃ b ∈ lat, (∀ x ∈ lat, a ≤ x ∧ x ≤ b) ∧
      a ≤ StatisticalAnalyzer.percentile lat 95 ∧
      StatisticalAnalyzer.percentile lat 95 ≤
        StatisticalAnalyzer.percentile lat 99 ∧
      StatisticalAnalyzer.percentile lat 99 ≤ b := by
  have hsort : (List.insertionSort (· ≤ ·) lat).Sorted (· ≤ ·) :=
    List.sorted_insertionSort _ _
  have hperm : (List.insertionSort (· ≤ ·) lat).Perm lat :=
    List.perm_insertionSort _ _
  set s := List.insertionSort (· ≤ ·) lat with hsdef
  have hlen : s.length = lat.length := hperm.length_eq
  have hslen : 1 ≤ s.length := by
    rw [hlen]
    exact List.length_pos.mpr hne
  have h0lt : 0 < s.length := hslen
  have hn1lt : s.length - 1 < s.length := by omega
  have hLq : (1 : ℚ) ≤ (lat.length : ℚ) := by
    have : 1 ≤ lat.length := hlen ▸ hslen
    exact_mod_cast this
  have ha_mem : s.getD 0 0 ∈ lat := by
    rw [← hperm.mem_iff]
    rw [List.getD_eq_getElem s 0 h0lt]
    exact List.getElem_mem _
  have hb_mem : s.getD (s.length - 1) 0 ∈ lat := by
    rw [← hperm.mem_iff]
    rw [List.getD_eq_getElem s 0 hn1lt]
    exact List.getElem_mem _
  -- virtual indices
  have hk95_0 : 0 ≤ (95 : ℚ) / 100 * ((lat.length : ℚ) - 1) := by
    have : (0 : ℚ) ≤ (lat.length : ℚ) - 1 := by linarith
    positivity
  have hk99_0 : 0 ≤ (99 : ℚ) / 100 * ((lat.length : ℚ) - 1) := by
    have : (0 : ℚ) ≤ (lat.length : ℚ) - 1 := by linarith
    positivity
  have hk95_99 : (95 : ℚ) / 100 * ((lat.length : ℚ) - 1) ≤
      (99 : ℚ) / 100 * ((lat.length : ℚ) - 1) := by
    have : (0 : ℚ) ≤ (lat.length : ℚ) - 1 := by linarith
    linarith
  have hk99_n : (99 : ℚ) / 100 * ((lat.length : ℚ) - 1) ≤ (s.length : ℚ) - 1 := by
    rw [hlen]
    have : (0 : ℚ) ≤ (lat.length : ℚ) - 1 := by linarith
    linarith
  have hk95_n : (95 : ℚ) / 100 * ((lat.length : ℚ) - 1) ≤ (s.length : ℚ) - 1 :=
    le_trans hk95_99 hk99_n
  have hb95 := sortedInterp_bounds s hsort _ hk95_0 hk95_n
  have hb99 := sortedInterp_bounds s hsort _ hk99_0 hk99_n
  have hmono := sortedInterp_mono s hsort _ _ hk95_0 hk95_99 hk99_n
  -- boundary indices are inside the array
  have hc99 : ⌈(99 : ℚ) / 100 * ((lat.length : ℚ) - 1)⌉ ≤ (s.length : ℤ) - 1 := by
    rw [Int.ceil_le]
    push_cast
    exact hk99_n
  have hf95 : (0 : ℤ) ≤ ⌊(95 : ℚ) / 100 * ((lat.length : ℚ) - 1)⌋ :=
    Int.floor_nonneg.mpr hk95_0
  have hc95 : ⌈(95 : ℚ) / 100 * ((lat.length : ℚ) - 1)⌉ ≤ (s.length : ℤ) - 1 := by
    rw [Int.ceil_le]
    push_cast
    exact hk95_n
  have hf95c : ⌊(95 : ℚ) / 100 * ((lat.length : ℚ) - 1)⌋ ≤
      ⌈(95 : ℚ) / 100 * ((lat.length : ℚ) - 1)⌉ := Int.floor_le_ceil _
  refine ⟨s.getD 0 0, ha_mem, s.getD (s.length - 1) 0, hb_mem, ?_, ?_, ?_, ?_⟩
  · intro x hx
    rw [← hperm.mem_iff] at hx
    obtain ⟨i, hi, rfl⟩ := List.getElem_of_mem hx
    constructor
    · rw [← List.getD_eq_getElem s 0 hi]
      exact sorted_getD_mono s hsort (Nat.zero_le i) hi
    · rw [← List.getD_eq_getElem s 0 hi]
      exact sorted_getD_mono s hsort (by omega) hn1lt
  · rw [percentile_eq_sortedInterp lat 95 hne, ← hsdef]
    refine le_trans ?_ hb95.1
    exact sorted_getD_mono s hsort (Nat.zero_le _) (by omega)
  · rw [percentile_eq_sortedInterp lat 95 hne, percentile_eq_sortedInterp lat 99 hne,
      ← hsdef]
    exact hmono
  · rw [percentile_eq_sortedInterp lat 99 hne, ← hsdef]
    refine le_trans hb99.2 ?_
    exact sorted_getD_mono s hsort (by omega) hn1lt

/-- C7: for any metric list with at least one successful record,
`analyze_metrics` succeeds and its `latency_p95` is at most its
`latency_p99`, with both lying within `[min, max]` of the successful
records' latencies (`a`/`b` below are the minimum/maximum). -/
theorem C7_percentile_monotonicity (sqrtFn : ℚ → ℚ) (tppf : ℚ → ℤ → ℚ) (now : ℚ)
    (metrics : List PerformanceMetric)
    (hs : (metrics.filter fun m => m.error.isNone) ≠ []) :
    ∃ r, StatisticalAnalyzer.analyze_metrics sqrtFn tppf now metrics = .ok r ∧
      ∃ a ∈ (metrics.filter fun m => m.error.isNone).map fun m => m.latency_ms,
      ∃ b ∈ (metrics.filter fun m => m.error.isNone).map fun m => m.latency_ms,
        (∀ x ∈ (metrics.filter fun m => m.error.isNone).map fun m => m.latency_ms,
          a ≤ x ∧ x ≤ b) ∧
        a ≤ r.latency_p95 ∧ r.latency_p95 ≤ r.latency_p99 ∧ r.latency_p99 ≤ b := by
  obtain ⟨m0, rest, rfl⟩ : ∃ m0 rest, metrics = m0 :: rest := by
    cases metrics with
    | nil => simp at hs
    | cons a l => exact ⟨a, l, rfl⟩
  have hlat : (((m0 :: rest).filter fun m => m.error.isNone).map
      fun m => m.latency_ms) ≠ [] := by
    simpa using hs
  obtain ⟨a, ha, b, hb, hbound, h95, h9599, h99⟩ := percentile_between _ hlat
  exact ⟨_, rfl, a, ha, b, hb, hbound, h95, h9599, h99⟩

theorem C7_witness :
    ∃ r, StatisticalAnalyzer.analyze_metrics id (fun _ _ => 1) 0
        [⟨"memory_search", 3, 1, 0, 0, 0, 1, 0, none⟩,
         ⟨"memory_search", 1, 1, 0, 0, 1, 1, 0, none⟩,
         ⟨"memory_search", 9, 1, 0, 0, 2, 1, 0, some "E"⟩] = .ok r ∧
      ∃ a ∈ ([⟨"memory_search", 3, 1, 0, 0, 0, 1, 0, none⟩,
              ⟨"memory_search", 1, 1, 0, 0, 1, 1, 0, none⟩,
              ⟨"memory_search", 9, 1, 0, 0, 2, 1, 0, some "E"⟩] :
          List PerformanceMetric).filter (fun m => m.error.isNone) |>.map
            fun m => m.latency_ms,
      ∃ b ∈ ([⟨"memory_search", 3, 1, 0, 0, 0, 1, 0, none⟩,
              ⟨"memory_search", 1, 1, 0, 0, 1, 1, 0, none⟩,
              ⟨"memory_search", 9, 1, 0, 0, 2, 1, 0, some "E"⟩] :
          List PerformanceMetric).filter (fun m => m.error.isNone) |>.map
            fun m => m.latency_ms,
        (∀ x ∈ ([⟨"memory_search", 3, 1, 0, 0, 0, 1, 0, none⟩,
                 ⟨"memory_search", 1, 1, 0, 0, 1, 1, 0, none⟩,
                 ⟨"memory_search", 9, 1, 0, 0, 2, 1, 0, some "E"⟩] :
            List PerformanceMetric).filter (fun m => m.error.isNone) |>.map
              fun m => m.latency_ms,
          a ≤ x ∧ x ≤ b) ∧
        a ≤ r.latency_p95 ∧ r.latency_p95 ≤ r.latency_p99 ∧ r.latency_p99 ≤ b :=
  C7_percentile_monotonicity id (fun _ _ => 1) 0
    [⟨"memory_search", 3, 1, 0, 0, 0, 1, 0, none⟩,
     ⟨"memory_search", 1, 1, 0, 0, 1, 1, 0, none⟩,
     ⟨"memory_search", 9, 1, 0, 0, 2, 1, 0, some "E"⟩] (by simp)
